import Mathlib

/-!
# Verification of the Expense-App budget performance and authentication code

This file gives a shallow embedding, in Lean, of the parts of the
Expense-App repository that the specification talks about:

* `getBudgetPerformance` from `src/api/postgres-storage.ts` (lines 148-251),
  together with the relational state it queries (`budgets`,
  `budget_allocations`, `expense_categories`, `expenses`);
* `hashPassword` / `comparePasswords` and the `/api/login`, `/api/user`
  handlers from the auth module.

Modelling conventions:

* SQL rows become Lean structures; a table is the list of its rows, in
  storage order.  `SELECT ... WHERE` becomes `List.filter`, `rows[0]`
  becomes `List.head?`, and an inner `JOIN` becomes a nested-loop
  product, exactly as the row sets the queries denote.
* `DOUBLE PRECISION` amounts are modelled as `Int` and `TIMESTAMP`
  dates as `Int` (timestamps, order-isomorphic to the real ones);
  the claims under study are about the algebraic structure of the
  computation, not float rounding.
* The possibility that the database layer throws is modelled by a
  `fail` flag on the state: when it is set, every query of the body
  raises, which is what the single `try/catch` of
  `getBudgetPerformance` observes.
* Effectful inputs (the random salt of `hashPassword`, the `scrypt`
  key-derivation function) are passed as explicit parameters.
* JavaScript strings handled character-wise (`split(".")`) are
  modelled as `List Char`; a Node `Buffer` is a `List Nat` of bytes.
-/

/-- A row of the `budgets` table (`schema copy.sql`). -/
structure BudgetRow where
  id : Nat
  userId : Nat
  name : String
  period : String
  startDate : Int
  endDate : Int
  amount : Int
  notes : Option String
  deriving Repr, DecidableEq

/-- A row of the `expense_categories` table. -/
structure ExpenseCategoryRow where
  id : Nat
  userId : Nat
  name : String
  deriving Repr, DecidableEq

/-- A row of the `budget_allocations` table. -/
structure BudgetAllocationRow where
  id : Nat
  budgetId : Nat
  categoryId : Nat
  subcategoryId : Option Nat
  amount : Int
  deriving Repr, DecidableEq

/-- A row of the `expenses` table. -/
structure ExpenseRow where
  id : Nat
  userId : Nat
  amount : Int
  description : String
  date : Int
  categoryId : Nat
  subcategoryId : Option Nat
  merchant : Option String
  notes : Option String
  deriving Repr, DecidableEq

/-- The relational state that `getBudgetPerformance` queries.  `fail`
models the connection/query layer throwing (network error, bad SQL,
...): when it is `true` the queries of the body raise and control
reaches the `catch` block. -/
structure DB where
  budgets : List BudgetRow
  expenseCategories : List ExpenseCategoryRow
  budgetAllocations : List BudgetAllocationRow
  expenses : List ExpenseRow
  fail : Bool
  deriving Repr, DecidableEq

/-- One element of the `categories` array built by
`getBudgetPerformance` (`categoryPerformance` in the source). -/
structure CategoryPerformance where
  categoryId : Nat
  categoryName : String
  allocated : Int
  spent : Int
  remaining : Int
  deriving Repr, DecidableEq

/-- The value returned by `getBudgetPerformance`. -/
structure BudgetPerformance where
  allocated : Int
  spent : Int
  remaining : Int
  categories : List CategoryPerformance
  deriving Repr, DecidableEq

/-- The object returned both when the budget does not exist and from
the `catch` block. -/
def zeroPerformance : BudgetPerformance :=
  { allocated := 0, spent := 0, remaining := 0, categories := [] }

/-- The query `SELECT ba.*, ec.name FROM budget_allocations ba JOIN
expense_categories ec ON ba.category_id = ec.id WHERE ba.budget_id = $1`
(lines 159-164): each allocation row of the budget paired with the name
of every matching category row (an inner join). -/
def allocationsWithCategoryName (db : DB) (budgetId : Nat) :
    List (BudgetAllocationRow × String) :=
  (db.budgetAllocations.filter (fun ba => ba.budgetId == budgetId)).flatMap
    (fun ba =>
      (db.expenseCategories.filter (fun ec => ec.id == ba.categoryId)).map
        (fun ec => (ba, ec.name)))

/-- The query `SELECT e.*, ec.name FROM expenses e JOIN
expense_categories ec ON e.category_id = ec.id WHERE e.user_id = $1 AND
e.date >= $2 AND e.date <= $3` (lines 186-193), with the budget's
owner and date range as parameters. -/
def expensesWithCategoryName (db : DB) (budget : BudgetRow) :
    List (ExpenseRow × String) :=
  (db.expenses.filter (fun e =>
      e.userId == budget.userId
        && decide (budget.startDate ≤ e.date)
        && decide (e.date ≤ budget.endDate))).flatMap
    (fun e =>
      (db.expenseCategories.filter (fun ec => ec.id == e.categoryId)).map
        (fun ec => (e, ec.name)))

/-- `Map.get` on the JavaScript `Map`, modelled as an association list
in insertion order: the value of the first (and only) entry with the
key. -/
def mapGet (m : List (Nat × Int)) (k : Nat) : Option Int :=
  match m with
  | [] => none
  | p :: rest => if p.1 == k then some p.2 else mapGet rest k

/-- `Map.set`: replaces the value of an existing key in place, else
appends the pair. -/
def mapSet (m : List (Nat × Int)) (k : Nat) (v : Int) : List (Nat × Int) :=
  match m with
  | [] => [(k, v)]
  | p :: rest => if p.1 == k then (k, v) :: rest else p :: mapSet rest k v

/-- Lines 212-217: `expenses.forEach(...)` accumulating
`spendingByCategory`, a `Map` from categoryId to the running sum of the
amounts.  (`get(categoryId) || 0` and `Option.getD 0` agree: `0` is
falsy in JavaScript, but `0 || 0 = 0` as well.) -/
def spendingByCategory (expenses : List (ExpenseRow × String)) : List (Nat × Int) :=
  expenses.foldl
    (fun m e => mapSet m e.1.categoryId ((mapGet m e.1.categoryId).getD 0 + e.1.amount))
    []

/-- The body of the `try` block of `getBudgetPerformance` (lines
149-241).  A `fail`ing database makes the queries raise, which the
`Except.error` propagates to the `catch`. -/
def getBudgetPerformanceBody (db : DB) (budgetId : Nat) :
    Except Unit BudgetPerformance :=
  if db.fail then Except.error () else
  match (db.budgets.filter (fun b => b.id == budgetId)).head? with
  | none => Except.ok zeroPerformance
  | some budget =>
      let allocations := allocationsWithCategoryName db budgetId
      let expenses := expensesWithCategoryName db budget
      let spending := spendingByCategory expenses
      let categoryPerformance := allocations.map (fun a =>
        let spent := (mapGet spending a.1.categoryId).getD 0
        { categoryId := a.1.categoryId
          categoryName := a.2
          allocated := a.1.amount
          spent := spent
          remaining := a.1.amount - spent : CategoryPerformance })
      let totalAllocated := allocations.foldl (fun sum a => sum + a.1.amount) 0
      let totalSpent := expenses.foldl (fun sum e => sum + e.1.amount) 0
      Except.ok
        { allocated := totalAllocated
          spent := totalSpent
          remaining := budget.amount - totalSpent
          categories := categoryPerformance }

/-- `getBudgetPerformance` (lines 148-251): the `try` body, with the
`catch` block returning the all-zero object on any error. -/
def getBudgetPerformance (db : DB) (budgetId : Nat) : BudgetPerformance :=
  match getBudgetPerformanceBody db budgetId with
  | Except.ok r => r
  | Except.error _ => zeroPerformance

/-- Referential integrity of the state, as the schema's constraints
enforce it (`expense_categories.id` is a primary key;
`budget_allocations.category_id` and `expenses.category_id` are
`NOT NULL REFERENCES expense_categories(id)`). -/
def DB.wf (db : DB) : Prop :=
  db.expenseCategories.Pairwise (fun a b => a.id ≠ b.id)
    ∧ (∀ ba ∈ db.budgetAllocations, ∃ ec ∈ db.expenseCategories, ec.id = ba.categoryId)
    ∧ (∀ e ∈ db.expenses, ∃ ec ∈ db.expenseCategories, ec.id = e.categoryId)

instance (db : DB) : Decidable db.wf := by
  unfold DB.wf; infer_instance

/-! ## Password hashing (`hashPassword` / `comparePasswords`) -/

/-- The lowercase hex digit of a value below 16: `0`-`9` are the
ASCII digits, `10`-`15` the letters `a`-`f`. -/
def hexChar (n : Nat) : Char :=
  if n < 10 then Char.ofNat (48 + n) else Char.ofNat (87 + n)

/-- `Buffer.prototype.toString("hex")`: two lowercase hex digits per
byte. -/
def hexEncode (bs : List Nat) : List Char :=
  bs.flatMap (fun b => [hexChar (b / 16), hexChar (b % 16)])

/-- The value of a hex digit. -/
def hexVal (c : Char) : Nat :=
  match c with
  | '0' => 0 | '1' => 1 | '2' => 2 | '3' => 3 | '4' => 4
  | '5' => 5 | '6' => 6 | '7' => 7 | '8' => 8 | '9' => 9
  | 'a' => 10 | 'b' => 11 | 'c' => 12 | 'd' => 13 | 'e' => 14 | 'f' => 15
  | _ => 0

/-- `Buffer.from(s, "hex")`: consumes the characters two at a time. -/
def hexDecode : List Char → List Nat
  | c1 :: c2 :: rest => (hexVal c1 * 16 + hexVal c2) :: hexDecode rest
  | _ => []

/-- `String.prototype.split(".")`, character-wise. -/
def splitOnDot : List Char → List (List Char)
  | [] => [[]]
  | c :: rest =>
      if c = '.' then [] :: splitOnDot rest
      else
        match splitOnDot rest with
        | [] => [[c]]
        | h :: t => (c :: h) :: t

/-- `crypto.timingSafeEqual`: throws (`Except.error`) when the two
buffers differ in length, otherwise compares them. -/
def timingSafeEqual (a b : List Nat) : Except Unit Bool :=
  if a.length = b.length then Except.ok (a == b) else Except.error ()

/-- `hashPassword` (auth module, lines 24-28): hex digest of
`scrypt(password, salt, 64)`, a dot, then the salt.  The random salt
(`randomBytes(16).toString("hex")`) and the `scrypt` function are
parameters of the model. -/
def hashPassword (scrypt : List Char → List Char → Nat → List Nat)
    (password salt : List Char) : List Char :=
  hexEncode (scrypt password salt 64) ++ '.' :: salt

/-- `comparePasswords` (auth module, lines 30-35): splits the stored
string at the first dot into digest and salt, re-derives the key from
the supplied password and compares with `timingSafeEqual`.  When the
stored string has no dot, Node's `scrypt` throws on the `undefined`
salt, which the `Except.error` models. -/
def comparePasswords (scrypt : List Char → List Char → Nat → List Nat)
    (supplied stored : List Char) : Except Unit Bool :=
  match splitOnDot stored with
  | hashed :: salt :: _ => timingSafeEqual (hexDecode hashed) (scrypt supplied salt 64)
  | _ => Except.error ()

/-! ## Login and user routes (`setupAuth`) -/

/-- A row of the `users` table.  The password column is kept
character-wise because `comparePasswords` takes it apart. -/
structure UserRow where
  id : Nat
  username : String
  password : List Char
  name : String
  email : String
  currency : String
  role : String
  deriving Repr, DecidableEq

/-- The user object with the `password` key removed:
`const \x7b password, ...userWithoutPassword \x7d = user`. -/
structure PublicUser where
  id : Nat
  username : String
  name : String
  email : String
  currency : String
  role : String
  deriving Repr, DecidableEq

/-- The destructuring that drops the password before `res.json`. -/
def stripPassword (u : UserRow) : PublicUser :=
  { id := u.id, username := u.username, name := u.name, email := u.email
    currency := u.currency, role := u.role }

/-- `SELECT * FROM users WHERE username = $1` followed by `rows[0]`. -/
def findUserByUsername (users : List UserRow) (username : String) : Option UserRow :=
  (users.filter (fun u => u.username == username)).head?

/-- Outcome of the `LocalStrategy` verify callback: `done(null, user)`,
`done(null, false)` or `done(err)`. -/
inductive AuthOutcome where
  | ok (user : UserRow)
  | fail
  | error
  deriving Repr, DecidableEq

/-- The `LocalStrategy` verify callback (lines 58-76): looks the
username up, rejects when the user is missing or the comparison says
false, and reports an error when `comparePasswords` throws. -/
def localStrategyVerify (scrypt : List Char → List Char → Nat → List Nat)
    (users : List UserRow) (username : String) (password : List Char) : AuthOutcome :=
  match findUserByUsername users username with
  | none => AuthOutcome.fail
  | some user =>
      match comparePasswords scrypt password user.password with
      | Except.ok true => AuthOutcome.ok user
      | Except.ok false => AuthOutcome.fail
      | Except.error _ => AuthOutcome.error

/-- Response of `POST /api/login`: `200` with the password-stripped
user (a session is established exactly in this case), `401` with a
message, or an error handed to `next(err)`. -/
inductive LoginResponse where
  | success (body : PublicUser)
  | unauthorized (message : String)
  | serverError
  deriving Repr, DecidableEq

/-- The `POST /api/login` handler (lines 138-151). -/
def loginRoute (scrypt : List Char → List Char → Nat → List Nat)
    (users : List UserRow) (username : String) (password : List Char) : LoginResponse :=
  match localStrategyVerify scrypt users username password with
  | AuthOutcome.error => LoginResponse.serverError
  | AuthOutcome.fail => LoginResponse.unauthorized "Invalid username or password"
  | AuthOutcome.ok user => LoginResponse.success (stripPassword user)

/-- Response of `GET /api/user`: `401` when unauthenticated, else the
password-stripped session user. -/
inductive UserResponse where
  | unauthorized
  | body (u : PublicUser)
  deriving Repr, DecidableEq

/-- The `GET /api/user` handler (lines 160-165); `req.user` is `some`
exactly when `req.isAuthenticated()`. -/
def getUserRoute (reqUser : Option UserRow) : UserResponse :=
  match reqUser with
  | none => UserResponse.unauthorized
  | some u => UserResponse.body (stripPassword u)

/-! ## Claim-side characterisations

These definitions state, in plain relational terms, the values the
claims of the specification talk about; the theorems below compare
`getBudgetPerformance` against them. -/

/-- The budget owner's expense rows whose date lies in the budget's
inclusive date range. -/
def ownerExpensesInRange (db : DB) (budget : BudgetRow) : List ExpenseRow :=
  db.expenses.filter (fun e =>
    e.userId == budget.userId
      && decide (budget.startDate ≤ e.date)
      && decide (e.date ≤ budget.endDate))

/-- Sum of the amounts of the owner's in-range expenses carrying the
given category. -/
def categorySpent (db : DB) (budget : BudgetRow) (categoryId : Nat) : Int :=
  (((ownerExpensesInRange db budget).filter
      (fun e => e.categoryId == categoryId)).map (fun e => e.amount)).sum

/-- Claim C2's reading of the total spent: only in-range expenses
whose category appears among the budget's allocations contribute. -/
def allocationRestrictedSpent (db : DB) (budgetId : Nat) (budget : BudgetRow) : Int :=
  (((ownerExpensesInRange db budget).filter (fun e =>
      (db.budgetAllocations.filter (fun ba => ba.budgetId == budgetId)).any
        (fun ba => ba.categoryId == e.categoryId))).map (fun e => e.amount)).sum

/-! ## Lemmas about the joins and the spending map -/

theorem foldl_add_eq_sum {α : Type} (f : α → Int) (l : List α) (init : Int) :
    l.foldl (fun s a => s + f a) init = init + (l.map f).sum := by
  induction l generalizing init with
  | nil => simp
  | cons a t ih => simp [ih, add_assoc]

/-- Primary-key uniqueness turns the category lookup into a
singleton. -/
theorem filter_category_eq_singleton (cats : List ExpenseCategoryRow)
    (hpw : cats.Pairwise (fun a b => a.id ≠ b.id))
    (ec : ExpenseCategoryRow) (hmem : ec ∈ cats) (c : Nat) (hid : ec.id = c) :
    cats.filter (fun x => x.id == c) = [ec] := by
  induction cats with
  | nil => cases hmem
  | cons a t ih =>
      rcases List.pairwise_cons.mp hpw with ⟨hhead, htail⟩
      rcases List.mem_cons.mp hmem with rfl | hmem'
      · have ht : t.filter (fun x => x.id == c) = [] := by
          apply List.filter_eq_nil_iff.mpr
          intro x hx
          simpa [hid] using (hhead x hx).symm
        simp [List.filter_cons, hid, ht]
      · have ha : (a.id == c) = false := by
          rw [← hid]
          simpa using hhead ec hmem'
        rw [List.filter_cons]
        simp only [ha, cond_false]
        exact ih htail hmem'

/-- Projecting the inner join on its left component recovers the
filtered left table, provided the referenced key exists and category
ids are unique. -/
theorem join_map_fst {α : Type} (cats : List ExpenseCategoryRow)
    (hpw : cats.Pairwise (fun a b => a.id ≠ b.id)) (key : α → Nat)
    (l : List α) (hfk : ∀ a ∈ l, ∃ ec ∈ cats, ec.id = key a) :
    (l.flatMap (fun a =>
        (cats.filter (fun ec => ec.id == key a)).map (fun ec => (a, ec.name)))).map
      Prod.fst = l := by
  induction l with
  | nil => simp
  | cons a t ih =>
      rcases hfk a (List.mem_cons_self a t) with ⟨ec, hecmem, hecid⟩
      rw [List.flatMap_cons, List.map_append,
          filter_category_eq_singleton cats hpw ec hecmem (key a) hecid,
          ih (fun x hx => hfk x (List.mem_cons_of_mem a hx))]
      rfl

theorem allocationsWithCategoryName_map_fst (db : DB) (budgetId : Nat)
    (hwf : db.wf) :
    (allocationsWithCategoryName db budgetId).map Prod.fst
      = db.budgetAllocations.filter (fun ba => ba.budgetId == budgetId) := by
  apply join_map_fst db.expenseCategories hwf.1
  intro ba hba
  exact hwf.2.1 ba (List.mem_of_mem_filter hba)

theorem expensesWithCategoryName_map_fst (db : DB) (budget : BudgetRow)
    (hwf : db.wf) :
    (expensesWithCategoryName db budget).map Prod.fst
      = ownerExpensesInRange db budget := by
  apply join_map_fst db.expenseCategories hwf.1
  intro e he
  exact hwf.2.2 e (List.mem_of_mem_filter he)

theorem mapGet_mapSet (m : List (Nat × Int)) (k : Nat) (v : Int) (c : Nat) :
    mapGet (mapSet m k v) c = if k = c then some v else mapGet m c := by
  induction m with
  | nil => by_cases h : k = c <;> simp [mapSet, mapGet, h]
  | cons p t ih =>
      by_cases hpk : p.1 = k
      · by_cases hkc : k = c
        · simp [mapSet, mapGet, hpk, hkc]
        · simp [mapSet, mapGet, hpk, hkc]
      · by_cases hpc : p.1 = c
        · have hkc : ¬ k = c := fun h => hpk (by rw [hpc, h])
          have hck : ¬ c = k := fun h => hkc h.symm
          simp [mapSet, mapGet, hpk, hpc, hkc, hck]
        · simpa [mapSet, mapGet, hpk, hpc] using ih

theorem mapGet_spending_foldl (rows : List (ExpenseRow × String)) :
    ∀ (m : List (Nat × Int)) (c : Nat),
      (mapGet (rows.foldl
          (fun m e => mapSet m e.1.categoryId
            ((mapGet m e.1.categoryId).getD 0 + e.1.amount)) m) c).getD 0
        = (mapGet m c).getD 0
            + (((rows.map Prod.fst).filter (fun e => e.categoryId == c)).map
                (fun e => e.amount)).sum := by
  induction rows with
  | nil => intro m c; simp
  | cons r t ih =>
      intro m c
      rw [List.foldl_cons, ih]
      by_cases h : r.1.categoryId = c
      · simp [mapGet_mapSet, h, List.filter_cons, add_assoc]
      · have h2 : (r.1.categoryId == c) = false := by simp [h]
        simp [mapGet_mapSet, h, List.filter_cons, h2]

theorem mapGet_spendingByCategory (rows : List (ExpenseRow × String)) (c : Nat) :
    (mapGet (spendingByCategory rows) c).getD 0
      = (((rows.map Prod.fst).filter (fun e => e.categoryId == c)).map
          (fun e => e.amount)).sum := by
  have := mapGet_spending_foldl rows [] c
  simpa [spendingByCategory, mapGet] using this

/-- Shape of the result when the budget row exists and no query
throws. -/
theorem getBudgetPerformance_some (db : DB) (budgetId : Nat) (budget : BudgetRow)
    (hfail : db.fail = false)
    (hb : (db.budgets.filter (fun b => b.id == budgetId)).head? = some budget) :
    getBudgetPerformance db budgetId =
      { allocated := (allocationsWithCategoryName db budgetId).foldl
          (fun sum a => sum + a.1.amount) 0
        spent := (expensesWithCategoryName db budget).foldl
          (fun sum e => sum + e.1.amount) 0
        remaining := budget.amount - (expensesWithCategoryName db budget).foldl
          (fun sum e => sum + e.1.amount) 0
        categories := (allocationsWithCategoryName db budgetId).map (fun a =>
          let spent := (mapGet (spendingByCategory (expensesWithCategoryName db budget))
            a.1.categoryId).getD 0
          { categoryId := a.1.categoryId
            categoryName := a.2
            allocated := a.1.amount
            spent := spent
            remaining := a.1.amount - spent }) } := by
  unfold getBudgetPerformance getBudgetPerformanceBody
  rw [hfail, hb]
  rfl

/-- The per-category spent amounts of the result are the claim's
category sums. -/
theorem spendingByCategory_getD (db : DB) (budget : BudgetRow) (hwf : db.wf)
    (c : Nat) :
    (mapGet (spendingByCategory (expensesWithCategoryName db budget)) c).getD 0
      = categorySpent db budget c := by
  rw [mapGet_spendingByCategory, expensesWithCategoryName_map_fst db budget hwf]
  rfl

/-! ## Concrete states used to evaluate the theorems -/

/-- A concrete budget: user 1, date range `[0, 10]`, target amount
100. -/
def exBudget : BudgetRow :=
  { id := 1, userId := 1, name := "October", period := "monthly",
    startDate := 0, endDate := 10, amount := 100, notes := none }

/-- A concrete state: one budget, two categories, one allocation (50
on category 1) and two in-range expenses of the owner: 20 on the
allocated category 1 and 30 on the unallocated category 2. -/
def exDB : DB :=
  { budgets := [exBudget]
    expenseCategories := [{ id := 1, userId := 1, name := "Food" },
                          { id := 2, userId := 1, name := "Tech" }]
    budgetAllocations := [{ id := 1, budgetId := 1, categoryId := 1,
                            subcategoryId := none, amount := 50 }]
    expenses := [{ id := 1, userId := 1, amount := 30, description := "laptop",
                   date := 5, categoryId := 2, subcategoryId := none,
                   merchant := none, notes := none },
                 { id := 2, userId := 1, amount := 20, description := "bread",
                   date := 3, categoryId := 1, subcategoryId := none,
                   merchant := none, notes := none }]
    fail := false }

/-- The same state with the query layer throwing. -/
def exDBFailing : DB :=
  { exDB with fail := true }

/-! ## Claim theorems: budget performance -/

/-- C1: for every budget that exists, the categories list has exactly
one entry per allocation of the budget; the entry's `allocated` is the
allocation's amount, its `spent` is the sum of the owner's in-range
expenses in the allocation's category (0 when none), and its
`remaining` is `allocated - spent`. -/
theorem budget_performance_categories_spec (db : DB) (budgetId : Nat)
    (budget : BudgetRow) (hwf : db.wf) (hfail : db.fail = false)
    (hb : (db.budgets.filter (fun b => b.id == budgetId)).head? = some budget) :
    (getBudgetPerformance db budgetId).categories.map
        (fun cp => (cp.categoryId, cp.allocated, cp.spent, cp.remaining))
      = (db.budgetAllocations.filter (fun ba => ba.budgetId == budgetId)).map
          (fun ba => (ba.categoryId, ba.amount, categorySpent db budget ba.categoryId,
            ba.amount - categorySpent db budget ba.categoryId)) := by
  rw [getBudgetPerformance_some db budgetId budget hfail hb]
  rw [← allocationsWithCategoryName_map_fst db budgetId hwf]
  rw [List.map_map, List.map_map]
  apply List.map_congr_left
  intro a _
  simp [spendingByCategory_getD db budget hwf]

/-- Witness for C1 on the concrete state. -/
theorem budget_performance_categories_spec_witness :
    (getBudgetPerformance exDB 1).categories.map
        (fun cp => (cp.categoryId, cp.allocated, cp.spent, cp.remaining))
      = (exDB.budgetAllocations.filter (fun ba => ba.budgetId == 1)).map
          (fun ba => (ba.categoryId, ba.amount, categorySpent exDB exBudget ba.categoryId,
            ba.amount - categorySpent exDB exBudget ba.categoryId)) :=
  budget_performance_categories_spec exDB 1 exBudget (by decide) rfl rfl

/-- C2 (amended): the total spent sums ALL of the owner's expenses in
the date range, whether or not their category appears among the
budget's allocations. -/
theorem budget_performance_spent_all_expenses (db : DB) (budgetId : Nat)
    (budget : BudgetRow) (hwf : db.wf) (hfail : db.fail = false)
    (hb : (db.budgets.filter (fun b => b.id == budgetId)).head? = some budget) :
    (getBudgetPerformance db budgetId).spent
      = ((ownerExpensesInRange db budget).map (fun e => e.amount)).sum := by
  rw [getBudgetPerformance_some db budgetId budget hfail hb]
  show (expensesWithCategoryName db budget).foldl (fun sum e => sum + e.1.amount) 0 = _
  rw [foldl_add_eq_sum, ← expensesWithCategoryName_map_fst db budget hwf,
      List.map_map]
  rw [zero_add]
  rfl

/-- Witness for the amended C2 on the concrete state. -/
theorem budget_performance_spent_all_expenses_witness :
    (getBudgetPerformance exDB 1).spent
      = ((ownerExpensesInRange exDB exBudget).map (fun e => e.amount)).sum :=
  budget_performance_spent_all_expenses exDB 1 exBudget (by decide) rfl rfl

/-- C2 (counterexample): in `exDB` the budget exists and the state is
well-formed, yet the total spent is 50 — the 30 spent on category 2,
which appears in no allocation, is counted — while the
allocation-restricted join of the claim yields 20. -/
theorem budget_performance_spent_not_allocation_restricted :
    (exDB.budgets.filter (fun b => b.id == 1)).head? = some exBudget
      ∧ exDB.wf
      ∧ (getBudgetPerformance exDB 1).spent = 50
      ∧ allocationRestrictedSpent exDB 1 exBudget = 20
      ∧ (getBudgetPerformance exDB 1).spent ≠ allocationRestrictedSpent exDB 1 exBudget :=
  ⟨rfl, by decide, by decide, by decide, by decide⟩

/-- C3: an expense row enters the calculation exactly when it belongs
to the budget's owner and its date lies in the inclusive range; the
total spent and every per-category spent are sums over those rows
only. -/
theorem budget_performance_expense_inclusion (db : DB) (budgetId : Nat)
    (budget : BudgetRow) (hwf : db.wf) (hfail : db.fail = false)
    (hb : (db.budgets.filter (fun b => b.id == budgetId)).head? = some budget) :
    (∀ e : ExpenseRow,
        e ∈ (expensesWithCategoryName db budget).map Prod.fst
          ↔ e ∈ db.expenses ∧ e.userId = budget.userId
              ∧ budget.startDate ≤ e.date ∧ e.date ≤ budget.endDate)
      ∧ (getBudgetPerformance db budgetId).spent
          = ((ownerExpensesInRange db budget).map (fun e => e.amount)).sum
      ∧ ∀ cp ∈ (getBudgetPerformance db budgetId).categories,
          cp.spent = categorySpent db budget cp.categoryId := by
  refine ⟨?_, ?_, ?_⟩
  · intro e
    rw [expensesWithCategoryName_map_fst db budget hwf]
    simp [ownerExpensesInRange, List.mem_filter, and_assoc]
  · rw [getBudgetPerformance_some db budgetId budget hfail hb]
    show (expensesWithCategoryName db budget).foldl (fun sum e => sum + e.1.amount) 0 = _
    rw [foldl_add_eq_sum, ← expensesWithCategoryName_map_fst db budget hwf,
        List.map_map]
    rw [zero_add]
    rfl
  · intro cp hcp
    rw [getBudgetPerformance_some db budgetId budget hfail hb] at hcp
    obtain ⟨a, _, rfl⟩ := List.mem_map.mp hcp
    simpa using spendingByCategory_getD db budget hwf a.1.categoryId

/-- Witness for C3 on the concrete state. -/
theorem budget_performance_expense_inclusion_witness :
    (∀ e : ExpenseRow,
        e ∈ (expensesWithCategoryName exDB exBudget).map Prod.fst
          ↔ e ∈ exDB.expenses ∧ e.userId = exBudget.userId
              ∧ exBudget.startDate ≤ e.date ∧ e.date ≤ exBudget.endDate)
      ∧ (getBudgetPerformance exDB 1).spent
          = ((ownerExpensesInRange exDB exBudget).map (fun e => e.amount)).sum
      ∧ ∀ cp ∈ (getBudgetPerformance exDB 1).categories,
          cp.spent = categorySpent exDB exBudget cp.categoryId :=
  budget_performance_expense_inclusion exDB 1 exBudget (by decide) rfl rfl

/-- C4: the total allocated is the sum of the amounts of the budget's
allocation rows. -/
theorem budget_performance_allocated_spec (db : DB) (budgetId : Nat)
    (budget : BudgetRow) (hwf : db.wf) (hfail : db.fail = false)
    (hb : (db.budgets.filter (fun b => b.id == budgetId)).head? = some budget) :
    (getBudgetPerformance db budgetId).allocated
      = ((db.budgetAllocations.filter (fun ba => ba.budgetId == budgetId)).map
          (fun ba => ba.amount)).sum := by
  rw [getBudgetPerformance_some db budgetId budget hfail hb]
  show (allocationsWithCategoryName db budgetId).foldl (fun sum a => sum + a.1.amount) 0 = _
  rw [foldl_add_eq_sum, ← allocationsWithCategoryName_map_fst db budgetId hwf,
      List.map_map]
  rw [zero_add]
  rfl

/-- Witness for C4 on the concrete state. -/
theorem budget_performance_allocated_spec_witness :
    (getBudgetPerformance exDB 1).allocated
      = ((exDB.budgetAllocations.filter (fun ba => ba.budgetId == 1)).map
          (fun ba => ba.amount)).sum :=
  budget_performance_allocated_spec exDB 1 exBudget (by decide) rfl rfl

/-- C9: the total remaining is the budget's own target amount minus
the total spent; whenever the total allocated differs from the
budget's amount, it therefore differs from allocated minus spent. -/
theorem budget_performance_remaining_spec (db : DB) (budgetId : Nat)
    (budget : BudgetRow) (hfail : db.fail = false)
    (hb : (db.budgets.filter (fun b => b.id == budgetId)).head? = some budget) :
    (getBudgetPerformance db budgetId).remaining
        = budget.amount - (getBudgetPerformance db budgetId).spent
      ∧ ((getBudgetPerformance db budgetId).allocated ≠ budget.amount →
          (getBudgetPerformance db budgetId).remaining
            ≠ (getBudgetPerformance db budgetId).allocated
                - (getBudgetPerformance db budgetId).spent) := by
  rw [getBudgetPerformance_some db budgetId budget hfail hb]
  refine ⟨rfl, ?_⟩
  intro hne hEq
  exact hne (sub_left_inj.mp hEq).symm

/-- Witness for C9 on the concrete state (where allocated 50 differs
from the budget amount 100). -/
theorem budget_performance_remaining_spec_witness :
    ((getBudgetPerformance exDB 1).remaining
        = exBudget.amount - (getBudgetPerformance exDB 1).spent
      ∧ ((getBudgetPerformance exDB 1).allocated ≠ exBudget.amount →
          (getBudgetPerformance exDB 1).remaining
            ≠ (getBudgetPerformance exDB 1).allocated
                - (getBudgetPerformance exDB 1).spent)) :=
  budget_performance_remaining_spec exDB 1 exBudget rfl rfl

/-- C8: when no budget row carries the requested id, the result is the
all-zero object, whatever the rest of the state holds. -/
theorem budget_performance_missing_budget (db : DB) (budgetId : Nat)
    (hb : (db.budgets.filter (fun b => b.id == budgetId)).head? = none) :
    getBudgetPerformance db budgetId = zeroPerformance := by
  unfold getBudgetPerformance getBudgetPerformanceBody
  cases hf : db.fail <;> simp [hf, hb]

/-- Witness for C8: `exDB` has no budget with id 2. -/
theorem budget_performance_missing_budget_witness :
    getBudgetPerformance exDB 2 = zeroPerformance :=
  budget_performance_missing_budget exDB 2 rfl

/-- C5 (amended): when an internal operation of the calculation
throws, `getBudgetPerformance` swallows the error and returns the
all-zero object — a fabricated successful result, not an error
response. -/
theorem budget_performance_catch_returns_zero (db : DB) (budgetId : Nat)
    (herr : getBudgetPerformanceBody db budgetId = Except.error ()) :
    getBudgetPerformance db budgetId = zeroPerformance := by
  unfold getBudgetPerformance
  rw [herr]

/-- Witness for the amended C5 on the failing concrete state. -/
theorem budget_performance_catch_returns_zero_witness :
    getBudgetPerformance exDBFailing 1 = zeroPerformance :=
  budget_performance_catch_returns_zero exDBFailing 1 rfl

/-- C5 (counterexample): on the failing state the body raises, yet the
function returns the zero object — indistinguishable from a successful
run over an empty state — although the same data without the failure
produces a non-zero result.  No error is reported to the caller. -/
theorem budget_performance_error_masked :
    getBudgetPerformanceBody exDBFailing 1 = Except.error ()
      ∧ getBudgetPerformance exDBFailing 1 = zeroPerformance
      ∧ getBudgetPerformance exDB 1 ≠ zeroPerformance :=
  ⟨rfl, rfl, by decide⟩

/-! ## Lemmas about hex encoding and dot-splitting -/

theorem hexChar_ne_dot_of_lt (n : Nat) (h : n < 16) : hexChar n ≠ '.' := by
  interval_cases n <;> decide

theorem hexVal_hexChar (n : Nat) (h : n < 16) : hexVal (hexChar n) = n := by
  interval_cases n <;> decide

theorem hexEncode_no_dot (bs : List Nat) (h : ∀ b ∈ bs, b < 256) :
    '.' ∉ hexEncode bs := by
  intro hmem
  rw [hexEncode, List.mem_flatMap] at hmem
  obtain ⟨b, hb, hc⟩ := hmem
  have hlt := h b hb
  have h1 : b / 16 < 16 := by omega
  have h2 : b % 16 < 16 := by omega
  simp only [List.mem_cons, List.not_mem_nil, or_false] at hc
  rcases hc with hc | hc
  · exact hexChar_ne_dot_of_lt (b / 16) h1 hc.symm
  · exact hexChar_ne_dot_of_lt (b % 16) h2 hc.symm

theorem hexDecode_hexEncode (bs : List Nat) (h : ∀ b ∈ bs, b < 256) :
    hexDecode (hexEncode bs) = bs := by
  induction bs with
  | nil => rfl
  | cons b t ih =>
      have hb : b < 256 := h b (List.mem_cons_self b t)
      have h1 : b / 16 < 16 := by omega
      have h2 : b % 16 < 16 := by omega
      show hexDecode (hexChar (b / 16) :: hexChar (b % 16) :: hexEncode t) = b :: t
      rw [hexDecode, hexVal_hexChar _ h1, hexVal_hexChar _ h2,
          ih (fun x hx => h x (List.mem_cons_of_mem b hx))]
      congr 1
      omega

theorem splitOnDot_no_dot (l : List Char) (h : '.' ∉ l) : splitOnDot l = [l] := by
  induction l with
  | nil => rfl
  | cons c t ih =>
      have hc : ¬ c = '.' := fun hh => h (hh ▸ List.mem_cons_self c t)
      have ht : '.' ∉ t := fun hm => h (List.mem_cons_of_mem c hm)
      simp [splitOnDot, hc, ih ht]

theorem splitOnDot_append (a b : List Char) (h : '.' ∉ a) :
    splitOnDot (a ++ '.' :: b) = a :: splitOnDot b := by
  induction a with
  | nil => simp [splitOnDot]
  | cons c t ih =>
      have hc : ¬ c = '.' := fun hh => h (hh ▸ List.mem_cons_self c t)
      have ht : '.' ∉ t := fun hm => h (List.mem_cons_of_mem c hm)
      simp [splitOnDot, hc, ih ht]

theorem splitOnDot_ne_nil (l : List Char) : splitOnDot l ≠ [] := by
  cases l with
  | nil => simp [splitOnDot]
  | cons c t =>
      unfold splitOnDot
      by_cases h : c = '.'
      · simp [h]
      · simp only [h, if_false]
        cases splitOnDot t <;> simp

/-! ## Claim theorems: password hashing -/

/-- C6: hashing then comparing round-trips.  `hashPassword` emits
`hex(scrypt(p, salt, 64)) ++ "." ++ salt`; comparing the same password
against its own hash yields `true`, and comparing against a hash whose
scrypt digest differs yields `false`.  The hypotheses record what
`crypto.scrypt` guarantees: a 64-byte digest, and a salt that is hex
(so dot-free). -/
theorem hashPassword_comparePasswords_roundtrip
    (scrypt : List Char → List Char → Nat → List Nat) (p q salt : List Char)
    (hlen : ∀ pw s, (scrypt pw s 64).length = 64)
    (hbyte : ∀ pw s b, b ∈ scrypt pw s 64 → b < 256)
    (hsalt : '.' ∉ salt) :
    hashPassword scrypt p salt = hexEncode (scrypt p salt 64) ++ '.' :: salt
      ∧ comparePasswords scrypt p (hashPassword scrypt p salt) = Except.ok true
      ∧ (scrypt p salt 64 ≠ scrypt q salt 64 →
          comparePasswords scrypt p (hashPassword scrypt q salt) = Except.ok false) := by
  refine ⟨rfl, ?_, ?_⟩
  · unfold comparePasswords hashPassword
    rw [splitOnDot_append _ _ (hexEncode_no_dot _ (fun b hb => hbyte p salt b hb)),
        splitOnDot_no_dot salt hsalt]
    show timingSafeEqual (hexDecode (hexEncode (scrypt p salt 64))) (scrypt p salt 64)
      = Except.ok true
    rw [hexDecode_hexEncode _ (fun b hb => hbyte p salt b hb)]
    simp [timingSafeEqual]
  · intro hne
    unfold comparePasswords hashPassword
    rw [splitOnDot_append _ _ (hexEncode_no_dot _ (fun b hb => hbyte q salt b hb)),
        splitOnDot_no_dot salt hsalt]
    show timingSafeEqual (hexDecode (hexEncode (scrypt q salt 64))) (scrypt p salt 64)
      = Except.ok false
    rw [hexDecode_hexEncode _ (fun b hb => hbyte q salt b hb)]
    unfold timingSafeEqual
    rw [if_pos (by rw [hlen, hlen])]
    have hne2 : (scrypt q salt 64 == scrypt p salt 64) = false :=
      beq_eq_false_iff_ne.mpr (Ne.symm hne)
    rw [hne2]

/-- A deterministic stand-in for `crypto.scrypt` used to evaluate the
theorems: 63 zero bytes followed by the password length mod 256. -/
def exScrypt : List Char → List Char → Nat → List Nat :=
  fun pw _ _ => List.replicate 63 0 ++ [pw.length % 256]

/-- A concrete dot-free salt. -/
def exSalt : List Char := ['0', '1']

/-- Witness for C6 with a concrete scrypt, salt and two passwords of
different digests. -/
theorem hashPassword_comparePasswords_roundtrip_witness :
    comparePasswords exScrypt ['a'] (hashPassword exScrypt ['a'] exSalt) = Except.ok true
      ∧ comparePasswords exScrypt ['a'] (hashPassword exScrypt ['a', 'b'] exSalt)
          = Except.ok false := by
  have h := hashPassword_comparePasswords_roundtrip exScrypt ['a'] ['a', 'b'] exSalt
    (fun pw s => by simp [exScrypt])
    (fun pw s b hb => by
      simp only [exScrypt, List.mem_append, List.mem_replicate, List.mem_cons,
        List.not_mem_nil, or_false] at hb
      rcases hb with h0 | h1 <;> omega)
    (by decide)
  exact ⟨h.2.1, h.2.2 (by decide)⟩

/-! ## Claim theorems: login and user responses -/

/-- Stored password strings as `hashPassword` produces them: a
dot-free digest part decoding to 64 bytes, a dot, a salt part. -/
def storedWellFormed (stored : List Char) : Prop :=
  ∃ hashed saltPart, stored = hashed ++ '.' :: saltPart
    ∧ '.' ∉ hashed ∧ (hexDecode hashed).length = 64

/-- On a well-formed stored hash, `comparePasswords` never throws. -/
theorem comparePasswords_ok_of_wellFormed
    (scrypt : List Char → List Char → Nat → List Nat)
    (hlen : ∀ pw s, (scrypt pw s 64).length = 64)
    (pw stored : List Char) (h : storedWellFormed stored) :
    ∃ bres, comparePasswords scrypt pw stored = Except.ok bres := by
  obtain ⟨hashed, saltPart, rfl, hnd, hlen64⟩ := h
  unfold comparePasswords
  rw [splitOnDot_append _ _ hnd]
  cases hsp : splitOnDot saltPart with
  | nil => exact absurd hsp (splitOnDot_ne_nil saltPart)
  | cons s1 rest =>
      show ∃ bres, timingSafeEqual (hexDecode hashed) (scrypt pw s1 64) = Except.ok bres
      refine ⟨hexDecode hashed == scrypt pw s1 64, ?_⟩
      unfold timingSafeEqual
      rw [if_pos (by rw [hlen64, hlen])]

/-- C7: a login attempt succeeds — a session is established and the
response is `200` with the password-stripped user — exactly when a
user row with the supplied username exists and `comparePasswords`
accepts; in every other case the response is `401` with the message
"Invalid username or password".  The hypotheses say the stored hashes
were produced by `hashPassword` (so `comparePasswords` cannot
throw). -/
theorem login_auth_characterisation
    (scrypt : List Char → List Char → Nat → List Nat)
    (users : List UserRow) (username : String) (password : List Char)
    (hlen : ∀ pw s, (scrypt pw s 64).length = 64)
    (hstore : ∀ u ∈ users, storedWellFormed u.password) :
    ((∃ u, findUserByUsername users username = some u
        ∧ comparePasswords scrypt password u.password = Except.ok true) →
      ∃ u, findUserByUsername users username = some u
        ∧ loginRoute scrypt users username password
            = LoginResponse.success (stripPassword u))
    ∧ ((¬ ∃ u, findUserByUsername users username = some u
          ∧ comparePasswords scrypt password u.password = Except.ok true) →
        loginRoute scrypt users username password
          = LoginResponse.unauthorized "Invalid username or password") := by
  constructor
  · rintro ⟨u, hu, hc⟩
    refine ⟨u, hu, ?_⟩
    unfold loginRoute localStrategyVerify
    simp only [hu, hc]
  · intro hno
    cases hfind : findUserByUsername users username with
    | none =>
        unfold loginRoute localStrategyVerify
        simp only [hfind]
    | some u =>
        have hmem : u ∈ users := by
          have hu1 : u ∈ users.filter (fun x => x.username == username) := by
            unfold findUserByUsername at hfind
            cases hfl : users.filter (fun x => x.username == username) with
            | nil => rw [hfl] at hfind; cases hfind
            | cons a t =>
                rw [hfl] at hfind
                have hau : a = u := by
                  simpa using hfind
                exact List.mem_cons.mpr (Or.inl hau.symm)
          exact List.mem_of_mem_filter hu1
        obtain ⟨bres, hres⟩ :=
          comparePasswords_ok_of_wellFormed scrypt hlen password u.password
            (hstore u hmem)
        cases bres with
        | true => exact absurd ⟨u, hfind, hres⟩ hno
        | false =>
            unfold loginRoute localStrategyVerify
            simp only [hfind, hres]

/-- A concrete user whose stored password hash was produced by
`hashPassword` with `exScrypt`, the empty password and salt "s". -/
def exUser : UserRow :=
  { id := 7, username := "alice"
    password := hexEncode (List.replicate 63 0 ++ [0]) ++ '.' :: ['s']
    name := "Alice", email := "alice@example.com"
    currency := "XAF", role := "user" }

set_option maxRecDepth 8192 in
/-- Witness for C7: with the concrete user table, logging in as
"alice" with the matching (empty) password succeeds. -/
theorem login_auth_characterisation_witness :
    ∃ u, findUserByUsername [exUser] "alice" = some u
      ∧ loginRoute exScrypt [exUser] "alice" []
          = LoginResponse.success (stripPassword u) := by
  apply (login_auth_characterisation exScrypt [exUser] "alice" []
    (fun pw s => by simp [exScrypt])
    (fun u hu => by
      rw [List.mem_singleton] at hu
      subst hu
      exact ⟨hexEncode (List.replicate 63 0 ++ [0]), ['s'], rfl, by decide, by decide⟩)).1
  exact ⟨exUser, rfl, rfl⟩

/-- C10: neither the login response nor the `/api/user` response ever
carries the password: the `GET /api/user` body is exactly the
password-stripped session user, every successful login body is the
password-stripped authenticated user, and stripping is insensitive to
the password field. -/
theorem responses_strip_password :
    (∀ (reqUser : Option UserRow) (u : UserRow), reqUser = some u →
        getUserRoute reqUser = UserResponse.body (stripPassword u))
      ∧ (∀ (scrypt : List Char → List Char → Nat → List Nat)
            (users : List UserRow) (username : String) (password : List Char)
            (b : PublicUser),
          loginRoute scrypt users username password = LoginResponse.success b →
          ∃ u, localStrategyVerify scrypt users username password = AuthOutcome.ok u
            ∧ b = stripPassword u)
      ∧ (∀ (u : UserRow) (pw : List Char),
          stripPassword { u with password := pw } = stripPassword u) := by
  refine ⟨?_, ?_, ?_⟩
  · rintro reqUser u rfl
    rfl
  · intro scrypt users username password b hb
    unfold loginRoute at hb
    cases hv : localStrategyVerify scrypt users username password with
    | ok u =>
        rw [hv] at hb
        refine ⟨u, rfl, ?_⟩
        injection hb with h
        exact h.symm
    | fail => rw [hv] at hb; cases hb
    | error => rw [hv] at hb; cases hb
  · intro u pw
    rfl

set_option maxRecDepth 8192 in
/-- Witness for C10 on the concrete user and a concrete successful
login. -/
theorem responses_strip_password_witness :
    getUserRoute (some exUser) = UserResponse.body (stripPassword exUser)
      ∧ (∃ u, localStrategyVerify exScrypt [exUser] "alice" [] = AuthOutcome.ok u
          ∧ stripPassword exUser = stripPassword u)
      ∧ stripPassword { exUser with password := ['x'] } = stripPassword exUser :=
  ⟨responses_strip_password.1 (some exUser) exUser rfl,
   responses_strip_password.2.1 exScrypt [exUser] "alice" [] (stripPassword exUser) rfl,
   responses_strip_password.2.2 exUser ['x']⟩
